import Mathlib

/-!
Verification of the cholestrack variant-analysis core: a shallow embedding of
`cholestrack/ai_agent/data_parser.py` (TSVVariantParser and
MultiSampleAnalyzer) and `cholestrack/ai_agent/genetic_models.py`
(GeneticModelFilter), together with theorems settling the specification's
claims about genotype parsing, the filter stage, the three inheritance-model
pipelines and the multi-sample comparator.

Modelling conventions: a pandas DataFrame cell that can be NaN is an
`Option` value (`none` = NaN); numeric columns are rationals; a DataFrame's
set of columns is modelled by per-column presence flags on the table, since
the embedded operations only ever test membership of the fixed column names
CHROM, POS, REF, ALT, GENE, GT, IMPACT, QUAL, DP, GQ, gnomAD_AF, AF.
Functions that `raise` in Python return `Except`.
-/

namespace Cholestrack

/-- One variant row. Each field is one of the named columns the embedded
code reads; `none` models a NaN cell. -/
structure Row where
  chrom : Option String := none
  pos : Option Int := none
  refAllele : Option String := none
  altAllele : Option String := none
  gene : Option String := none
  gt : Option String := none
  impact : Option String := none
  qual : Option ℚ := none
  dp : Option ℚ := none
  gq : Option ℚ := none
  gnomadAF : Option ℚ := none
  af : Option ℚ := none
deriving Repr, DecidableEq

/-- A DataFrame of variant rows: per-column presence flags (the embedded code
tests `col in df.columns` for exactly these columns) plus the ordered rows. -/
structure Table where
  hasCHROM : Bool := true
  hasPOS : Bool := true
  hasREF : Bool := true
  hasALT : Bool := true
  hasGENE : Bool := true
  hasGT : Bool := true
  hasIMPACT : Bool := true
  hasQUAL : Bool := true
  hasDP : Bool := true
  hasGQ : Bool := true
  hasGnomadAF : Bool := true
  hasAF : Bool := true
  rows : List Row := []
deriving Repr, DecidableEq

/-- The empty DataFrame `pd.DataFrame()`: no columns, no rows. -/
def emptyTable : Table :=
  { hasCHROM := false, hasPOS := false, hasREF := false, hasALT := false,
    hasGENE := false, hasGT := false, hasIMPACT := false, hasQUAL := false,
    hasDP := false, hasGQ := false, hasGnomadAF := false, hasAF := false,
    rows := [] }

/-! ## Python string primitives

The embedded code uses `str.replace` with one-character arguments,
`str.split` with a one-character separator, and `str.strip`. They are
implemented here over the character list of the string (structurally
recursive, hence evaluable), with Python's semantics: `split` keeps empty
parts and `"".split(c) == [""]`; `strip` removes leading and trailing
whitespace. -/

/-- Python `s.replace('|', '/')`: one character replaced by another. -/
def pyReplaceBar (s : String) : String :=
  ⟨s.data.map (fun c => if c = '|' then '/' else c)⟩

/-- Accumulator loop of `pySplitChar`: the first argument is the reversed
current part. -/
def splitCharAux (sep : Char) : List Char → List Char → List String
  | [], acc => [⟨acc.reverse⟩]
  | c :: cs, acc =>
    if c = sep then ⟨acc.reverse⟩ :: splitCharAux sep cs []
    else splitCharAux sep cs (c :: acc)

/-- Python `s.split(sep)` for a one-character separator: empty parts kept,
`"".split(sep) == [""]`. -/
def pySplitChar (sep : Char) (s : String) : List String :=
  splitCharAux sep s.data []

/-- Python `s.strip()`: leading and trailing whitespace removed. -/
def pyStrip (s : String) : String :=
  ⟨((s.data.dropWhile Char.isWhitespace).reverse.dropWhile Char.isWhitespace).reverse⟩

/-- Ascending lexicographic comparison of character lists by code point: the
element order of Python's `sorted` on strings. -/
def charListLe : List Char → List Char → Bool
  | [], _ => true
  | _ :: _, [] => false
  | a :: as, b :: bs => if a < b then true else if b < a then false else charListLe as bs

/-- The string order of Python's `sorted`, as a relation. -/
def strLe (a b : String) : Prop := charListLe a.data b.data = true

instance : DecidableRel strLe := fun x y =>
  inferInstanceAs (Decidable (charListLe x.data y.data = true))

/-! ## Genotype parser (genetic_models.py, `GeneticModelFilter._parse_genotype`,
`_is_heterozygous`, `_is_homozygous_alt`, lines 34-89) -/

/-- GeneticModelFilter._parse_genotype: `none` models the Python pair
`(None, None)`. NaN input or the literal `"./."` fail; `|` is normalized to
`/`; the string must split into exactly two parts. -/
def parseGenotype (gtString : Option String) : Option (String × String) :=
  match gtString with
  | none => none
  | some s =>
    if s = "./." then none
    else
      match pySplitChar '/' (pyReplaceBar s) with
      | [a, b] => some (a, b)
      | _ => none

/-- GeneticModelFilter._is_heterozygous (lines 59-73). -/
def isHeterozygous (gtString : Option String) : Bool :=
  match parseGenotype gtString with
  | none => false
  | some (a, b) => a != b && (a == "0" || b == "0")

/-- GeneticModelFilter._is_homozygous_alt (lines 75-89). -/
def isHomozygousAlt (gtString : Option String) : Bool :=
  match parseGenotype gtString with
  | none => false
  | some (a, b) => a == b && a != "0"

/-! ## Filter stage (data_parser.py, `TSVVariantParser`) -/

/-- The pandas comparison `value >= threshold` on a column cell: NaN compares
false, so a missing value fails the test. -/
def qualGE (v : Option ℚ) (threshold : ℚ) : Bool :=
  match v with
  | none => false
  | some x => threshold ≤ x

/-- The pandas mask `col.isna() | (col <= threshold)` used by the frequency
filters: a missing value passes, a present value must be at most the
threshold. -/
def freqPass (v : Option ℚ) (threshold : ℚ) : Bool :=
  match v with
  | none => true
  | some x => x ≤ threshold

/-- The pandas mask `col.isin(impacts)`: NaN is in no list. -/
def impactPass (impacts : List String) (v : Option String) : Bool :=
  match v with
  | none => false
  | some s => impacts.contains s

/-- TSVVariantParser.filter_by_quality (lines 82-110): each supplied
threshold whose column exists keeps the rows whose value compares `>=`;
an absent column or an unsupplied threshold imposes no constraint. -/
def filterByQuality (tbl : Table) (minQual minDepth minGq : Option ℚ) : Table :=
  let r1 := match minQual with
    | none => tbl.rows
    | some q => if tbl.hasQUAL then tbl.rows.filter (fun r => qualGE r.qual q) else tbl.rows
  let r2 := match minDepth with
    | none => r1
    | some d => if tbl.hasDP then r1.filter (fun r => qualGE r.dp d) else r1
  let r3 := match minGq with
    | none => r2
    | some g => if tbl.hasGQ then r2.filter (fun r => qualGE r.gq g) else r2
  { tbl with rows := r3 }

/-- TSVVariantParser.filter_by_frequency (lines 127-157): for each supplied
threshold whose column exists, keep rows whose value is NaN or at most the
threshold. -/
def filterByFrequency (tbl : Table) (maxGnomadAF maxAF : Option ℚ) : Table :=
  let r1 := match maxGnomadAF with
    | none => tbl.rows
    | some th =>
      if tbl.hasGnomadAF then tbl.rows.filter (fun r => freqPass r.gnomadAF th) else tbl.rows
  let r2 := match maxAF with
    | none => r1
    | some th => if tbl.hasAF then r1.filter (fun r => freqPass r.af th) else r1
  { tbl with rows := r2 }

/-- The row mask of filter_by_genes: `any(gene in str(x).split(',') for gene
in gene_list) if pd.notna(x) else False`. -/
def geneMatches (geneList : List String) (g : Option String) : Bool :=
  match g with
  | none => false
  | some s => geneList.any (fun gene => (pySplitChar ',' s).contains gene)

/-- TSVVariantParser.filter_by_genes (lines 159-177): with no GENE column the
result is `pd.DataFrame()`; otherwise keep rows one of whose comma-separated
gene symbols is in `gene_list`. -/
def filterByGenes (tbl : Table) (geneList : List String) : Table :=
  if tbl.hasGENE then
    { tbl with rows := tbl.rows.filter (fun r => geneMatches geneList r.gene) }
  else emptyTable

/-- The raw comma-split gene tokens of the table, NaN cells dropped, in row
order: the elements fed one by one into the Python set `genes` by
`genes.update(str(gene_str).split(','))`. -/
def rawGeneTokens (tbl : Table) : List String :=
  (tbl.rows.filterMap (fun r => r.gene)).flatMap (fun s => pySplitChar ',' s)

/-- TSVVariantParser.get_gene_list (lines 196-211): collect the distinct raw
comma-split tokens into a set, then strip each, drop empties and sort. The
`dedup` models the Python set (same distinct elements); `sorted` is an
ascending stable sort. -/
def getGeneList (tbl : Table) : List String :=
  if tbl.hasGENE then
    List.insertionSort strLe
      (((rawGeneTokens tbl).dedup.map pyStrip).filter (fun g => g ≠ ""))
  else []

/-! ## Inheritance model engine (genetic_models.py, `GeneticModelFilter`) -/

/-- The `ValueError`s raised by GeneticModelFilter: the constructor names the
whole list of missing required columns, the filter methods name one
structural column. -/
inductive ModelError where
  | missingColumns (cols : List String)
  | missingColumn (col : String)
deriving Repr, DecidableEq

/-- The required column set checked by GeneticModelFilter._validate_columns. -/
def requiredColumns : List String := ["CHROM", "POS", "REF", "ALT"]

/-- Presence of one of the constructor-required columns in the table. -/
def hasColumn (tbl : Table) (c : String) : Bool :=
  if c = "CHROM" then tbl.hasCHROM
  else if c = "POS" then tbl.hasPOS
  else if c = "REF" then tbl.hasREF
  else if c = "ALT" then tbl.hasALT
  else false

/-- GeneticModelFilter.__init__ / _validate_columns (lines 17-32): raise a
ValueError listing every missing required column, else hold the table. -/
def mkGeneticModelFilter (tbl : Table) : Except ModelError Table :=
  let missing := requiredColumns.filter (fun c => !hasColumn tbl c)
  if missing.isEmpty then .ok tbl else .error (.missingColumns missing)

/-- The shared per-row filter chain of the three model pipelines: anchor on a
zygosity predicate over GT, then the gnomAD frequency mask, the QUAL mask and
the IMPACT mask, each applied only when its column exists (genetic_models.py
lines 117-141, 169-193 and 229-245, which differ only in the anchor). -/
def modelFilterRows (anchor : Option String → Bool) (tbl : Table)
    (maxGnomadAF minQual : ℚ) (imps : List String) : List Row :=
  let f1 := tbl.rows.filter (fun r => anchor r.gt)
  let f2 := if tbl.hasGnomadAF then f1.filter (fun r => freqPass r.gnomadAF maxGnomadAF) else f1
  let f3 := if tbl.hasQUAL then f2.filter (fun r => qualGE r.qual minQual) else f2
  if tbl.hasIMPACT then f3.filter (fun r => impactPass imps r.impact) else f3

/-- GeneticModelFilter.filter_autosomal_dominant (lines 91-141): requires the
GT column, anchors on heterozygous rows. `impacts = none` models the Python
default `['HIGH', 'MODERATE']`. -/
def filterAutosomalDominant (tbl : Table) (maxGnomadAF minQual : ℚ)
    (impacts : Option (List String)) : Except ModelError Table :=
  let imps := impacts.getD ["HIGH", "MODERATE"]
  if !tbl.hasGT then .error (.missingColumn "GT")
  else .ok { tbl with rows := modelFilterRows isHeterozygous tbl maxGnomadAF minQual imps }

/-- GeneticModelFilter.filter_autosomal_recessive (lines 143-193): same chain
anchored on homozygous-alternate rows. -/
def filterAutosomalRecessive (tbl : Table) (maxGnomadAF minQual : ℚ)
    (impacts : Option (List String)) : Except ModelError Table :=
  let imps := impacts.getD ["HIGH", "MODERATE"]
  if !tbl.hasGT then .error (.missingColumn "GT")
  else .ok { tbl with rows := modelFilterRows isHomozygousAlt tbl maxGnomadAF minQual imps }

/-- The per-gene candidate count `value_counts()` of a row list: occurrences
of a non-NaN gene value; a NaN gene has no count (pandas value_counts drops
NaN, and `isin` never matches NaN). -/
def geneCount (rows : List Row) (g : Option String) : ℕ :=
  match g with
  | none => 0
  | some s => rows.countP (fun r => r.gene == some s)

/-- An output row of filter_compound_heterozygous: the variant row plus the
engine-added `variants_in_gene` column. -/
structure CHRow where
  row : Row
  variantsInGene : ℕ
deriving Repr, DecidableEq

/-- The sort key of `sort_values(['GENE', 'POS'])`: ascending lexicographic
on (GENE, POS) with NaN placed last in each key (pandas `na_position`
default). -/
def chKey (c : CHRow) : Lex (WithTop String × WithTop ℤ) :=
  toLex (c.row.gene.elim ⊤ (fun s => (s : WithTop String)),
         c.row.pos.elim ⊤ (fun p => (p : WithTop ℤ)))

/-- The row ordering used by the compound-heterozygous output sort. -/
def chLe (a b : CHRow) : Prop := chKey a ≤ chKey b

instance : DecidableRel chLe := fun a b => inferInstanceAs (Decidable (chKey a ≤ chKey b))

instance : IsTotal CHRow chLe := ⟨fun a b => le_total (chKey a) (chKey b)⟩

instance : IsTrans CHRow chLe := ⟨fun _ _ _ h1 h2 => le_trans h1 h2⟩

/-- The body of filter_compound_heterozygous after its column checks
(lines 229-257): heterozygous candidates through the frequency/quality/impact
chain, kept only when their raw gene value counts at least 2 among the
candidates, annotated with that count and sorted by (GENE, POS). -/
def chOutput (tbl : Table) (maxGnomadAF minQual : ℚ) (imps : List String) : List CHRow :=
  let cand := modelFilterRows isHeterozygous tbl maxGnomadAF minQual imps
  let kept := cand.filter (fun r => 2 ≤ geneCount cand r.gene)
  List.insertionSort chLe (kept.map (fun r => ⟨r, geneCount cand r.gene⟩))

/-- GeneticModelFilter.filter_compound_heterozygous (lines 195-257): checks
the GENE column, then the GT column, then computes `chOutput`. The source's
`require_both_variants` parameter is accepted and, as in the source, never
read. -/
def filterCompoundHeterozygous (tbl : Table) (maxGnomadAF minQual : ℚ)
    (impacts : Option (List String)) (_requireBothVariants : Bool) :
    Except ModelError (List CHRow) :=
  let imps := impacts.getD ["HIGH", "MODERATE"]
  if !tbl.hasGENE then .error (.missingColumn "GENE")
  else if !tbl.hasGT then .error (.missingColumn "GT")
  else .ok (chOutput tbl maxGnomadAF minQual imps)

/-! ## Multi-sample comparator (data_parser.py, `MultiSampleAnalyzer`) -/

/-- The location key `f"{row['CHROM']}:{row['POS']}"`; a NaN cell prints as
`nan`. -/
def rowLocKey (r : Row) : String :=
  (r.chrom.elim "nan" id) ++ ":" ++ (r.pos.elim "nan" toString)

/-- The set of location keys collected from the non-target samples (each
contributes only when it has both CHROM and POS columns). -/
def otherPositions (others : List (String × Table)) : List String :=
  others.flatMap (fun st =>
    if st.2.hasCHROM && st.2.hasPOS then st.2.rows.map rowLocKey else [])

/-- MultiSampleAnalyzer.find_unique_variants (lines 310-344) over the
analyzer's mapping of sample id to table (a Python dict: keys distinct, in
insertion order). A sample id not in the mapping yields `pd.DataFrame()`;
with no other samples the target table is returned whole; otherwise the
target's rows are kept when their location key appears in no other sample. -/
def findUniqueVariants (samples : List (String × Table)) (sampleId : String) : Table :=
  match samples.find? (fun st => st.1 == sampleId) with
  | none => emptyTable
  | some target =>
    let others := samples.filter (fun st => st.1 != sampleId)
    if others.isEmpty then target.2
    else if target.2.hasCHROM && target.2.hasPOS then
      { target.2 with
        rows := target.2.rows.filter (fun r => !(otherPositions others).contains (rowLocKey r)) }
    else emptyTable

/-! ## Helper lemmas -/

theorem parseGenotype_some_iff {s a b : String} :
    parseGenotype (some s) = some (a, b) ↔
      s ≠ "./." ∧ pySplitChar '/' (pyReplaceBar s) = [a, b] := by
  have hps : parseGenotype (some s) =
      (if s = "./." then none
       else
         match pySplitChar '/' (pyReplaceBar s) with
         | [a, b] => some (a, b)
         | _ => none) := rfl
  rw [hps]
  by_cases hs : s = "./."
  · simp [hs]
  · rw [if_neg hs]
    rcases hl : pySplitChar '/' (pyReplaceBar s) with _ | ⟨x, _ | ⟨y, _ | ⟨z, t⟩⟩⟩ <;>
      simp [hs, and_comm]

theorem isHeterozygous_iff (gt : Option String) :
    isHeterozygous gt = true ↔
      ∃ a b, parseGenotype gt = some (a, b) ∧ a ≠ b ∧ (a = "0" ∨ b = "0") := by
  unfold isHeterozygous
  rcases h : parseGenotype gt with _ | ⟨a, b⟩
  · simp
  · simp only [bne_iff_ne, Bool.and_eq_true, Bool.or_eq_true, beq_iff_eq, ne_eq,
      Option.some.injEq, Prod.mk.injEq, decide_eq_true_eq]
    constructor
    · rintro ⟨hne, hz⟩
      exact ⟨a, b, ⟨rfl, rfl⟩, hne, hz⟩
    · rintro ⟨a1, b1, ⟨rfl, rfl⟩, hne, hz⟩
      exact ⟨hne, hz⟩

theorem isHomozygousAlt_iff (gt : Option String) :
    isHomozygousAlt gt = true ↔
      ∃ a b, parseGenotype gt = some (a, b) ∧ a = b ∧ a ≠ "0" := by
  unfold isHomozygousAlt
  rcases h : parseGenotype gt with _ | ⟨a, b⟩
  · simp
  · simp only [bne_iff_ne, Bool.and_eq_true, beq_iff_eq, ne_eq, Option.some.injEq,
      Prod.mk.injEq]
    constructor
    · rintro ⟨heq, hz⟩
      exact ⟨a, b, ⟨rfl, rfl⟩, heq, hz⟩
    · rintro ⟨a1, b1, ⟨rfl, rfl⟩, heq, hz⟩
      exact ⟨heq, hz⟩

theorem charListLe_total : ∀ as bs : List Char,
    charListLe as bs = true ∨ charListLe bs as = true := by
  intro as
  induction as with
  | nil => intro bs; left; rfl
  | cons a as ih =>
    intro bs
    cases bs with
    | nil => right; rfl
    | cons b bs =>
      by_cases hab : a < b
      · left; simp [charListLe, hab]
      · by_cases hba : b < a
        · right; simp [charListLe, hba]
        · rcases ih bs with h | h
          · left; simp [charListLe, hab, hba, h]
          · right; simp [charListLe, hba, hab, h]

theorem charListLe_trans : ∀ as bs cs : List Char,
    charListLe as bs = true → charListLe bs cs = true → charListLe as cs = true := by
  intro as
  induction as with
  | nil => intro bs cs h1 h2; rfl
  | cons a as ih =>
    intro bs cs h1 h2
    cases bs with
    | nil => simp [charListLe] at h1
    | cons b bs =>
      cases cs with
      | nil => simp [charListLe] at h2
      | cons c cs =>
        by_cases hab : a < b
        · by_cases hbc : b < c
          · simp [charListLe, lt_trans hab hbc]
          · by_cases hcb : c < b
            · simp [charListLe, hbc, hcb] at h2
            · have hbc' : b = c := le_antisymm (not_lt.mp hcb) (not_lt.mp hbc)
              subst hbc'
              simp [charListLe, hab]
        · by_cases hba : b < a
          · simp [charListLe, hab, hba] at h1
          · have hab' : a = b := le_antisymm (not_lt.mp hba) (not_lt.mp hab)
            subst hab'
            simp only [charListLe, lt_irrefl, if_false] at h1
            by_cases hac : a < c
            · simp [charListLe, hac]
            · by_cases hca : c < a
              · simp [charListLe, hac, hca] at h2
              · simp only [charListLe, hac, hca, if_false] at h2 ⊢
                exact ih bs cs h1 h2

instance : IsTotal String strLe := ⟨fun x y => charListLe_total x.data y.data⟩

instance : IsTrans String strLe := ⟨fun _ _ _ h1 h2 => charListLe_trans _ _ _ h1 h2⟩

theorem freqPass_iff (v : Option ℚ) (th : ℚ) :
    freqPass v th = true ↔ v = none ∨ ∃ x, v = some x ∧ x ≤ th := by
  cases v <;> simp [freqPass]

theorem qualGE_none (th : ℚ) : qualGE none th = false := rfl

theorem geneMatches_iff (gl : List String) (g : Option String) :
    geneMatches gl g = true ↔ ∃ s tok, g = some s ∧ tok ∈ pySplitChar ',' s ∧ tok ∈ gl := by
  cases g with
  | none => simp [geneMatches]
  | some s =>
    simp only [geneMatches, List.any_eq_true, Option.some.injEq]
    constructor
    · rintro ⟨tok, htok, hc⟩
      exact ⟨s, tok, rfl, by simpa using hc, htok⟩
    · rintro ⟨s', tok, rfl, hmem, hgl⟩
      exact ⟨tok, hgl, by simpa using hmem⟩

theorem modelFilterRows_qual {tbl : Table} {anchor : Option String → Bool}
    {maxG minQ : ℚ} {imps : List String} (hQ : tbl.hasQUAL = true) :
    ∀ r ∈ modelFilterRows anchor tbl maxG minQ imps, qualGE r.qual minQ = true := by
  intro r hr
  unfold modelFilterRows at hr
  rw [hQ] at hr
  simp only [if_true] at hr
  cases hG : tbl.hasGnomadAF <;> cases hI : tbl.hasIMPACT <;>
    rw [hG, hI] at hr <;> simp_all [List.mem_filter]

/-! ## Claim theorems -/

/-- C3: for every genotype token (a string or a missing value),
`is_heterozygous` is true iff the token yields exactly two allele parts
(with `|` and `/` treated as the same separator), the alleles differ and one
of them is `"0"`; `is_homozygous_alt` is true iff the parse succeeds, the
alleles are equal and differ from `"0"`; both predicates are false (and,
being total functions, never raise) on missing input, on the literal `"./."`
and on any token that does not split into exactly two parts. -/
theorem genotype_predicates_spec (gt : Option String) :
    (isHeterozygous gt = true ↔
      ∃ a b, parseGenotype gt = some (a, b) ∧ a ≠ b ∧ (a = "0" ∨ b = "0"))
    ∧ (isHomozygousAlt gt = true ↔
      ∃ a b, parseGenotype gt = some (a, b) ∧ a = b ∧ a ≠ "0")
    ∧ (∀ s, gt = some s →
        (isHeterozygous gt = true ↔
          ∃ a b, pySplitChar '/' (pyReplaceBar s) = [a, b] ∧ a ≠ b ∧ (a = "0" ∨ b = "0")))
    ∧ (gt = none → isHeterozygous gt = false ∧ isHomozygousAlt gt = false)
    ∧ (gt = some "./." → isHeterozygous gt = false ∧ isHomozygousAlt gt = false)
    ∧ (∀ s, gt = some s → (∀ a b, pySplitChar '/' (pyReplaceBar s) ≠ [a, b]) →
        isHeterozygous gt = false ∧ isHomozygousAlt gt = false) := by
  refine ⟨isHeterozygous_iff gt, isHomozygousAlt_iff gt, ?_, ?_, ?_, ?_⟩
  · rintro s rfl
    rw [isHeterozygous_iff]
    constructor
    · rintro ⟨a, b, hp, hne, hz⟩
      exact ⟨a, b, (parseGenotype_some_iff.mp hp).2, hne, hz⟩
    · rintro ⟨a, b, hsp, hne, hz⟩
      by_cases hs : s = "./."
      · exfalso
        rw [hs] at hsp
        have hcalc : pySplitChar '/' (pyReplaceBar "./.") = [".", "."] := rfl
        rw [hcalc] at hsp
        have h1 : "." = a := (List.cons.inj hsp).1
        have h2 : "." = b := (List.cons.inj (List.cons.inj hsp).2).1
        exact hne (h1.symm.trans h2)
      · exact ⟨a, b, parseGenotype_some_iff.mpr ⟨hs, hsp⟩, hne, hz⟩
  · rintro rfl
    exact ⟨rfl, rfl⟩
  · rintro rfl
    exact ⟨rfl, rfl⟩
  · rintro s rfl hno
    constructor
    · rw [Bool.eq_false_iff]
      intro hhet
      obtain ⟨a, b, hp, -, -⟩ := (isHeterozygous_iff _).mp hhet
      exact hno a b (parseGenotype_some_iff.mp hp).2
    · rw [Bool.eq_false_iff]
      intro hhom
      obtain ⟨a, b, hp, -, -⟩ := (isHomozygousAlt_iff _).mp hhom
      exact hno a b (parseGenotype_some_iff.mp hp).2

/-- C5: filtering by quality 30 and then by quality 40 yields, row for row,
the same table as filtering by quality 40 directly: quality thresholds
compose by intersection. -/
theorem filterByQuality_monotone (tbl : Table) :
    filterByQuality (filterByQuality tbl (some 30) none none) (some 40) none none =
      filterByQuality tbl (some 40) none none := by
  by_cases h : tbl.hasQUAL
  · simp only [filterByQuality, h, if_true, List.filter_filter]
    congr 1
    apply List.filter_congr
    intro r _
    cases hv : r.qual with
    | none => rfl
    | some x =>
      simp only [qualGE]
      by_cases h40 : (40 : ℚ) ≤ x
      · have h30 : (30 : ℚ) ≤ x := le_trans (by norm_num) h40
        simp [h40, h30]
      · simp [h40]
  · simp [filterByQuality, h]

/-- C6: a row whose frequency value is missing always passes
filter_by_frequency; a row with a present value passes a supplied threshold
iff the value is at most that threshold (per frequency column, when that
column exists). -/
theorem filterByFrequency_missing_passes (tbl : Table) (maxG maxA : Option ℚ) (r : Row) :
    r ∈ (filterByFrequency tbl maxG maxA).rows ↔
      r ∈ tbl.rows
      ∧ (∀ th, maxG = some th → tbl.hasGnomadAF = true →
          (r.gnomadAF = none ∨ ∃ x, r.gnomadAF = some x ∧ x ≤ th))
      ∧ (∀ th, maxA = some th → tbl.hasAF = true →
          (r.af = none ∨ ∃ x, r.af = some x ∧ x ≤ th)) := by
  rcases maxG with _ | g <;> rcases maxA with _ | a <;>
    cases hg : tbl.hasGnomadAF <;> cases ha : tbl.hasAF <;>
      (simp [filterByFrequency, hg, ha, List.mem_filter, freqPass_iff]; try tauto)

/-- C7: filter_by_genes keeps a row iff one of its comma-separated gene
symbols is in the gene list; a table with no GENE column yields the empty
table (zero rows), not the input unchanged. -/
theorem filterByGenes_spec (tbl : Table) (gl : List String) :
    (tbl.hasGENE = false → filterByGenes tbl gl = emptyTable)
    ∧ (∀ r, r ∈ (filterByGenes tbl gl).rows ↔
        r ∈ tbl.rows ∧ tbl.hasGENE = true
          ∧ ∃ s tok, r.gene = some s ∧ tok ∈ pySplitChar ',' s ∧ tok ∈ gl) := by
  constructor
  · intro h
    simp [filterByGenes, h]
  · intro r
    cases h : tbl.hasGENE with
    | false => simp [filterByGenes, h, emptyTable]
    | true => simp [filterByGenes, h, List.mem_filter, geneMatches_iff, and_assoc]

/-- C8: on a table lacking the GT column, every inheritance-model filter
fails with an error naming a missing structural column before any row-level
work: the dominant and recessive filters name GT, the compound-heterozygous
filter names GT when GENE is present and GENE otherwise; and whenever the
GENE column is absent the compound-heterozygous filter names GENE,
independently of the GT check. -/
theorem inheritance_missing_gt (tbl : Table) (maxG minQ : ℚ)
    (imps : Option (List String)) (rb : Bool) (hGT : tbl.hasGT = false) :
    filterAutosomalDominant tbl maxG minQ imps = .error (.missingColumn "GT")
    ∧ filterAutosomalRecessive tbl maxG minQ imps = .error (.missingColumn "GT")
    ∧ filterCompoundHeterozygous tbl maxG minQ imps rb =
        .error (.missingColumn (if tbl.hasGENE then "GT" else "GENE"))
    ∧ (∀ tbl2 : Table, tbl2.hasGENE = false →
        filterCompoundHeterozygous tbl2 maxG minQ imps rb =
          .error (.missingColumn "GENE")) := by
  refine ⟨?_, ?_, ?_, ?_⟩
  · simp [filterAutosomalDominant, hGT]
  · simp [filterAutosomalRecessive, hGT]
  · cases hG : tbl.hasGENE <;> simp [filterCompoundHeterozygous, hGT, hG]
  · intro tbl2 hG2
    simp [filterCompoundHeterozygous, hG2]

/-- Witness for C8 at a concrete table lacking GT (other columns present). -/
theorem inheritance_missing_gt_witness :
    filterAutosomalDominant { hasGT := false } 1 30 none = .error (.missingColumn "GT") :=
  (inheritance_missing_gt { hasGT := false } 1 30 none true rfl).1

/-- C9: constructing GeneticModelFilter on a table missing any of CHROM,
POS, REF, ALT fails at construction time with an error listing exactly the
missing ones of those columns (every missing column is named); with all four
present construction succeeds and holds the table. -/
theorem mkGeneticModelFilter_spec (tbl : Table) :
    (tbl.hasCHROM = true → tbl.hasPOS = true → tbl.hasREF = true → tbl.hasALT = true →
      mkGeneticModelFilter tbl = .ok tbl)
    ∧ ((tbl.hasCHROM = false ∨ tbl.hasPOS = false ∨ tbl.hasREF = false ∨
          tbl.hasALT = false) →
        ∃ l, mkGeneticModelFilter tbl = .error (.missingColumns l) ∧ l ≠ []
          ∧ (∀ c, c ∈ l ↔ c ∈ requiredColumns ∧ hasColumn tbl c = false)) := by
  constructor
  · intro h1 h2 h3 h4
    simp [mkGeneticModelFilter, requiredColumns, hasColumn, h1, h2, h3, h4]
  · intro hmiss
    have hex : ∃ c0, c0 ∈ requiredColumns.filter (fun c => !hasColumn tbl c) := by
      rcases hmiss with h | h | h | h
      · exact ⟨"CHROM", List.mem_filter.mpr ⟨by simp [requiredColumns],
          by rw [show hasColumn tbl "CHROM" = tbl.hasCHROM from rfl, h]; rfl⟩⟩
      · exact ⟨"POS", List.mem_filter.mpr ⟨by simp [requiredColumns],
          by rw [show hasColumn tbl "POS" = tbl.hasPOS from rfl, h]; rfl⟩⟩
      · exact ⟨"REF", List.mem_filter.mpr ⟨by simp [requiredColumns],
          by rw [show hasColumn tbl "REF" = tbl.hasREF from rfl, h]; rfl⟩⟩
      · exact ⟨"ALT", List.mem_filter.mpr ⟨by simp [requiredColumns],
          by rw [show hasColumn tbl "ALT" = tbl.hasALT from rfl, h]; rfl⟩⟩
    obtain ⟨c0, hc0⟩ := hex
    have hne : requiredColumns.filter (fun c => !hasColumn tbl c) ≠ [] :=
      List.ne_nil_of_mem hc0
    refine ⟨requiredColumns.filter (fun c => !hasColumn tbl c), ?_, hne, ?_⟩
    · have hempty : (requiredColumns.filter (fun c => !hasColumn tbl c)).isEmpty = false := by
        cases hl : requiredColumns.filter (fun c => !hasColumn tbl c) with
        | nil => exact absurd hl hne
        | cons x xs => rfl
      simp [mkGeneticModelFilter, hempty]
    · intro c
      simp [List.mem_filter]

/-- C10: whenever a min_qual threshold is supplied and the QUAL column
exists, a row whose QUAL value is missing is dropped by filter_by_quality
and appears in no inheritance-model pipeline output (its quality step uses
the `>= min_qual` comparison, which a missing value fails). -/
theorem missing_qual_excluded (tbl : Table) (q : ℚ) (md mg : Option ℚ) (r : Row)
    (hQ : tbl.hasQUAL = true) (hr : r.qual = none) :
    r ∉ (filterByQuality tbl (some q) md mg).rows
    ∧ (∀ maxG imps out, filterAutosomalDominant tbl maxG q imps = .ok out →
        r ∉ out.rows)
    ∧ (∀ maxG imps out, filterAutosomalRecessive tbl maxG q imps = .ok out →
        r ∉ out.rows)
    ∧ (∀ maxG imps rb out, filterCompoundHeterozygous tbl maxG q imps rb = .ok out →
        ∀ c ∈ out, c.row ≠ r) := by
  have hqual : qualGE r.qual q = false := by rw [hr]; rfl
  refine ⟨?_, ?_, ?_, ?_⟩
  · intro hmem
    unfold filterByQuality at hmem
    simp only [hQ, if_true] at hmem
    have h1 : r ∈ tbl.rows.filter (fun x => qualGE x.qual q) := by
      rcases md with _ | d <;> rcases mg with _ | g <;>
        cases hd : tbl.hasDP <;> cases hgq : tbl.hasGQ <;>
          simp_all [List.mem_filter]
    rw [List.mem_filter, hqual] at h1
    exact Bool.false_ne_true h1.2
  · intro maxG imps out hout hmem
    rw [filterAutosomalDominant] at hout
    cases hgt : tbl.hasGT <;> rw [hgt] at hout
    · simp at hout
    · simp only [Bool.not_true, Bool.false_eq_true, if_false, Except.ok.injEq] at hout
      subst hout
      have := modelFilterRows_qual hQ r hmem
      rw [hqual] at this
      exact Bool.false_ne_true this
  · intro maxG imps out hout hmem
    rw [filterAutosomalRecessive] at hout
    cases hgt : tbl.hasGT <;> rw [hgt] at hout
    · simp at hout
    · simp only [Bool.not_true, Bool.false_eq_true, if_false, Except.ok.injEq] at hout
      subst hout
      have := modelFilterRows_qual hQ r hmem
      rw [hqual] at this
      exact Bool.false_ne_true this
  · intro maxG imps rb out hout c hc hcr
    rw [filterCompoundHeterozygous] at hout
    cases hge : tbl.hasGENE <;> rw [hge] at hout
    · simp at hout
    · cases hgt : tbl.hasGT <;> rw [hgt] at hout
      · simp at hout
      · simp only [Bool.not_true, Bool.false_eq_true, if_false, Except.ok.injEq] at hout
        subst hout
        simp only [chOutput] at hc
        have hcann := (List.mem_insertionSort chLe).mp hc
        obtain ⟨r0, hr0, hr0c⟩ := List.mem_map.mp hcann
        have hr0cand : r0 ∈ modelFilterRows isHeterozygous tbl maxG q
            (imps.getD ["HIGH", "MODERATE"]) := (List.mem_filter.mp hr0).1
        have := modelFilterRows_qual hQ r0 hr0cand
        have hr0r : r0 = r := by rw [← hcr, ← hr0c]
        rw [hr0r, hqual] at this
        exact Bool.false_ne_true this

/-- Witness for C10: a concrete table whose only row has a missing QUAL. -/
theorem missing_qual_excluded_witness :
    ({ qual := none } : Row) ∉
      (filterByQuality { rows := [{ qual := none }] } (some 30) none none).rows :=
  (missing_qual_excluded { rows := [{ qual := none }] } 30 none none { qual := none }
    rfl rfl).1

/-- A one-row table used as concrete input for the multi-sample claims. -/
def sampleTableA : Table :=
  { rows := [{ chrom := some "chr1", pos := some 100, refAllele := some "A",
               altAllele := some "T" }] }

/-- Counterexample for C1: asked for sample "B", which is not a key of the
mapping, find_unique_variants returns the empty DataFrame — a normal result,
not a raised sample-not-found error. -/
theorem findUniqueVariants_missing_sample_cex :
    findUniqueVariants [("A", sampleTableA)] "B" = emptyTable := rfl

/-- C1 (amended): for every mapping and every target sample that is not one
of its keys, find_unique_variants returns the empty table instead of raising
a lookup error. -/
theorem findUniqueVariants_missing_sample (samples : List (String × Table))
    (sid : String) (h : ∀ st ∈ samples, st.1 ≠ sid) :
    findUniqueVariants samples sid = emptyTable := by
  unfold findUniqueVariants
  have hfind : samples.find? (fun st => st.1 == sid) = none := by
    rw [List.find?_eq_none]
    intro st hst
    simp [h st hst]
  rw [hfind]

/-- Witness for C1's amended theorem at a concrete mapping. -/
theorem findUniqueVariants_missing_sample_witness :
    findUniqueVariants [("S1", sampleTableA)] "S2" = emptyTable :=
  findUniqueVariants_missing_sample [("S1", sampleTableA)] "S2" (by decide)

/-- A table whose two rows carry raw gene tokens that differ only in
whitespace: `"X,B"` splits into `X` and `B`, `"X, B"` into `X` and `" B"`. -/
def geneDupTable : Table :=
  { rows := [{ gene := some "X,B" }, { gene := some "X, B" }] }

/-- Counterexample for C4: the raw tokens `"B"` and `" B"` are distinct
members of the token set, are deduplicated before trimming, and both trim to
`"B"`, so get_gene_list returns a list with a duplicated symbol. -/
theorem getGeneList_duplicate_cex :
    getGeneList geneDupTable = ["B", "B", "X"] ∧ ¬(getGeneList geneDupTable).Nodup := by
  constructor
  · rfl
  · decide

/-- C4 (amended): get_gene_list returns an ascending-sorted list holding, for
each distinct raw comma-split token whose stripped form is nonempty, that
stripped form — one entry per distinct raw token, deduplicated before
stripping, so raw tokens differing only in surrounding whitespace yield
duplicate entries. -/
theorem getGeneList_spec (tbl : Table) :
    (getGeneList tbl).Sorted strLe
    ∧ ∀ s : String, (getGeneList tbl).count s =
        if tbl.hasGENE = true ∧ s ≠ "" then
          (rawGeneTokens tbl).dedup.countP (fun tok => pyStrip tok == s)
        else 0 := by
  constructor
  · unfold getGeneList
    cases h : tbl.hasGENE with
    | false => simp
    | true =>
      simp only [if_true]
      exact List.sorted_insertionSort strLe _
  · intro s
    unfold getGeneList
    cases h : tbl.hasGENE with
    | false => simp
    | true =>
      simp only [if_true, true_and]
      rw [(List.perm_insertionSort strLe _).count_eq]
      by_cases hs : s = ""
      · subst hs
        rw [if_neg (by simp)]
        rw [List.count_eq_zero]
        intro hmem
        have hfalse := (List.mem_filter.mp hmem).2
        simp at hfalse
      · rw [if_pos hs]
        rw [List.count_eq_countP]
        rw [List.countP_filter]
        have hcong : ∀ x ∈ (rawGeneTokens tbl).dedup.map pyStrip,
            ((x == s && decide (x ≠ "")) = true ↔ (x == s) = true) := by
          intro x _
          by_cases hx : x = s
          · subst hx
            simp [hs]
          · simp [hx]
        rw [List.countP_congr hcong]
        rw [List.countP_map]
        rfl

/-- C2: on a table with GT and GENE columns, filter_compound_heterozygous
returns exactly (as a multiset) the heterozygous rows surviving the
frequency/quality/impact filters whose raw GENE value occurs at least twice
among those candidates; every output row's `variants_in_gene` equals the
number of output rows sharing its GENE value and is at least 2; and the
output is sorted ascending by (GENE, POS). -/
theorem filterCompoundHeterozygous_spec (tbl : Table) (maxG minQ : ℚ)
    (impacts : Option (List String)) (rb : Bool)
    (hGT : tbl.hasGT = true) (hGENE : tbl.hasGENE = true) :
    ∃ out, filterCompoundHeterozygous tbl maxG minQ impacts rb = .ok out
      ∧ (out.map CHRow.row).Perm
          ((modelFilterRows isHeterozygous tbl maxG minQ
              (impacts.getD ["HIGH", "MODERATE"])).filter
            (fun r => 2 ≤ geneCount
              (modelFilterRows isHeterozygous tbl maxG minQ
                (impacts.getD ["HIGH", "MODERATE"])) r.gene))
      ∧ (∀ c ∈ out, 2 ≤ c.variantsInGene
          ∧ c.variantsInGene = out.countP (fun d => d.row.gene == c.row.gene))
      ∧ out.Sorted chLe := by
  set imps := impacts.getD ["HIGH", "MODERATE"] with himps
  set cand := modelFilterRows isHeterozygous tbl maxG minQ imps with hcand
  set kept := cand.filter (fun r => 2 ≤ geneCount cand r.gene) with hkept
  set ann := kept.map (fun r => CHRow.mk r (geneCount cand r.gene)) with hann
  have hout : chOutput tbl maxG minQ imps = List.insertionSort chLe ann := rfl
  refine ⟨chOutput tbl maxG minQ imps, ?_, ?_, ?_, ?_⟩
  · simp [filterCompoundHeterozygous, hGT, hGENE]
  · rw [hout]
    calc ((List.insertionSort chLe ann).map CHRow.row).Perm (ann.map CHRow.row) :=
          (List.perm_insertionSort chLe ann).map CHRow.row
      _ = kept := by rw [hann, List.map_map]; exact List.map_id kept
  · intro c hc
    rw [hout] at hc
    have hcann : c ∈ ann := (List.mem_insertionSort chLe).mp hc
    obtain ⟨r0, hr0kept, hr0c⟩ := List.mem_map.mp hcann
    have hr0 := List.mem_filter.mp hr0kept
    have hcnt : 2 ≤ geneCount cand r0.gene := by simpa using hr0.2
    subst hr0c
    refine ⟨hcnt, ?_⟩
    have e1 : (chOutput tbl maxG minQ imps).countP (fun d => d.row.gene == r0.gene) =
        ann.countP (fun d => d.row.gene == r0.gene) := by
      rw [hout]
      exact (List.perm_insertionSort chLe ann).countP_eq _
    have e2 : ann.countP (fun d => d.row.gene == r0.gene) =
        kept.countP (fun r => r.gene == r0.gene) := by
      rw [hann, List.countP_map]
      rfl
    have e3 : kept.countP (fun r => r.gene == r0.gene) =
        cand.countP (fun r => r.gene == r0.gene) := by
      rw [hkept, List.countP_filter]
      apply List.countP_congr
      intro x _
      constructor
      · intro hand
        rw [Bool.and_eq_true] at hand
        exact hand.1
      · intro hp
        have hgx : x.gene = r0.gene := by simpa using hp
        rw [Bool.and_eq_true]
        refine ⟨hp, ?_⟩
        rw [hgx]
        exact decide_eq_true hcnt
    have e4 : cand.countP (fun r => r.gene == r0.gene) = geneCount cand r0.gene := by
      obtain ⟨s, hsg⟩ : ∃ s, r0.gene = some s := by
        cases hg : r0.gene with
        | none => rw [hg] at hcnt; simp [geneCount] at hcnt
        | some s => exact ⟨s, rfl⟩
      rw [hsg]
      rfl
    show geneCount cand r0.gene = _
    rw [e1, e2, e3, e4]
  · rw [hout]
    exact List.sorted_insertionSort chLe ann

/-- Two heterozygous BRCA1 rows, both passing every filter: the concrete
compound-heterozygous scenario of the specification. -/
def compHetTable : Table :=
  { rows := [
      { chrom := some "chr1", pos := some 100, gene := some "BRCA1", gt := some "0/1",
        qual := some 50, impact := some "HIGH" },
      { chrom := some "chr1", pos := some 50, gene := some "BRCA1", gt := some "0/1",
        qual := some 50, impact := some "HIGH" } ] }

/-- Witness for C2 at the concrete two-row BRCA1 table. -/
theorem filterCompoundHeterozygous_spec_witness :
    ∃ out, filterCompoundHeterozygous compHetTable 1 30 none true = .ok out
      ∧ (out.map CHRow.row).Perm
          ((modelFilterRows isHeterozygous compHetTable 1 30
              ((none : Option (List String)).getD ["HIGH", "MODERATE"])).filter
            (fun r => 2 ≤ geneCount
              (modelFilterRows isHeterozygous compHetTable 1 30
                ((none : Option (List String)).getD ["HIGH", "MODERATE"])) r.gene))
      ∧ (∀ c ∈ out, 2 ≤ c.variantsInGene
          ∧ c.variantsInGene = out.countP (fun d => d.row.gene == c.row.gene))
      ∧ out.Sorted chLe :=
  filterCompoundHeterozygous_spec compHetTable 1 30 none true rfl rfl

end Cholestrack
